import Mathlib

/-!
Verification development for the brand-report generator (`src/Code.js`).

The JavaScript numeric type is modelled by `ℚ` (exact rational arithmetic):
the spec states all numeric rules over real numbers ("multiply by 100,
round, divide by 100"), and every amount handled by the program is a short
decimal for which rational arithmetic agrees with the displayed 2-decimal
output; half-cent ties, where the source's IEEE-double scaling can decide
differently from exact rationals, are asserted only at binary64-exact
inputs (see `roundToNearest` and claim C1).  `NaN` (the result of `parseFloat` on a non-numeric string) is
modelled by `Option ℚ` with `none` for `NaN`; all arithmetic on amounts is
`NaN`-propagating, mirroring IEEE `NaN` propagation.

Each definition is a direct translation of the correspondingly named
JavaScript function or code block; the source line numbers are given in the
doc comments.
-/

set_option maxRecDepth 8000

unseal Rat.add Rat.mul Rat.sub Rat.inv Rat.ofScientific

/-- Lowercasing of one ASCII character, as JS `toLowerCase` acts on the
character data this pipeline meets. -/
def charToLower (c : Char) : Char :=
  if 65 ≤ c.toNat ∧ c.toNat ≤ 90 then Char.ofNat (c.toNat + 32) else c

/-- JS `String.prototype.toLowerCase` (ASCII range). -/
def jsToLower (s : String) : String := String.mk (s.data.map charToLower)

/-- JS `String.prototype.trim`: strip whitespace from both ends. -/
def jsTrim (s : String) : String :=
  String.mk (((s.data.dropWhile Char.isWhitespace).reverse.dropWhile Char.isWhitespace).reverse)

/-- Lexicographic comparison of character lists by code point, the order
the JS default array sort comparator induces on the ASCII keys this
pipeline sorts. -/
def charListLt : List Char → List Char → Bool
  | [], [] => false
  | [], _ :: _ => true
  | _ :: _, [] => false
  | a :: as, b :: bs =>
    if a.toNat < b.toNat then true
    else if b.toNat < a.toNat then false
    else charListLt as bs

/-- Strict lexicographic order on strings. -/
def strLtB (a b : String) : Bool := charListLt a.data b.data

/-- Lexicographic `≤` on strings. -/
def strLeB (a b : String) : Bool := !strLtB b a

/-- JavaScript `Math.round` applied to its exact argument: nearest integer,
an exact `.5` tie resolved toward positive infinity, i.e. `⌊x + 1/2⌋`. -/
def jsMathRound (q : ℚ) : ℤ := ⌊q + 1/2⌋

/-- `roundToNearest` (Code.js lines 515-517):
`Math.round(value * Math.pow(10, decimals)) / Math.pow(10, decimals)`.
All call sites use the default `decimals = 2`.  The multiply is an
IEEE-double operation in the source but exact here, so the model and the
code can disagree exactly at half-cent ties whose scaled double product is
inexact; every concrete rounding this file proves about is at a value
where the two agree (the scaled value is binary64-exact, or the double
product and the exact product round to the same integer), and claim C1
confines its tie assertions to binary64-exact inputs. -/
def roundToNearest (value : ℚ) (decimals : ℕ) : ℚ :=
  (jsMathRound (value * 10 ^ decimals) : ℚ) / 10 ^ decimals

/-- The rounding rule exactly as the spec words it (§4.4, glossary):
"multiply by 100, apply standard round-half-away-from-zero, divide by 100".
Defined from the spec's words, for comparison against `roundToNearest`. -/
def roundHalfAwayFromZero (q : ℚ) : ℤ := if q < 0 then -⌊-q + 1/2⌋ else ⌊q + 1/2⌋

/-- Value of a list of decimal digit characters. -/
def digitsToNat (cs : List Char) : ℕ := cs.foldl (fun n c => 10 * n + (c.toNat - 48)) 0

/-- Exponent part of a JS float literal after the `e`/`E`:
optional sign then digits; an empty digit run contributes exponent 0
(JS `parseFloat` stops before an incomplete exponent). -/
def parseExpPart (cs : List Char) : ℤ :=
  match cs with
  | '-' :: t => (if (t.takeWhile Char.isDigit).isEmpty then 0 else -(digitsToNat (t.takeWhile Char.isDigit) : ℤ))
  | '+' :: t => (if (t.takeWhile Char.isDigit).isEmpty then 0 else (digitsToNat (t.takeWhile Char.isDigit) : ℤ))
  | t => (if (t.takeWhile Char.isDigit).isEmpty then 0 else (digitsToNat (t.takeWhile Char.isDigit) : ℤ))

/-- Unsigned decimal core of JS `parseFloat`: longest prefix of the form
`digits [. digits] [e [sign] digits]`; `none` (JS `NaN`) when no digit is
found before or after the dot. -/
def parseDecimalCore (cs : List Char) : Option ℚ :=
  let intDigits := cs.takeWhile Char.isDigit
  let rest1 := cs.dropWhile Char.isDigit
  let fracDigits := if rest1.head? = some '.' then rest1.tail.takeWhile Char.isDigit else []
  let rest2 := if rest1.head? = some '.' then rest1.tail.dropWhile Char.isDigit else rest1
  if intDigits.isEmpty ∧ fracDigits.isEmpty then none
  else
    let mantissa : ℚ := (digitsToNat intDigits : ℚ) + (digitsToNat fracDigits : ℚ) / 10 ^ fracDigits.length
    let e : ℤ :=
      match rest2 with
      | 'e' :: t => parseExpPart t
      | 'E' :: t => parseExpPart t
      | _ => 0
    some (mantissa * 10 ^ e)

/-- JS `parseFloat`: skip leading whitespace, optional sign, then the
decimal core; `none` models `NaN`. -/
def jsParseFloat (s : String) : Option ℚ :=
  match s.data.dropWhile Char.isWhitespace with
  | '-' :: t => (parseDecimalCore t).map Neg.neg
  | '+' :: t => parseDecimalCore t
  | t => parseDecimalCore t

/-- JS `a || b` on the strings produced by row normalization, whose only
falsy value is the empty string (an absent object key yields `undefined`,
which behaves identically to `""` at every use site in Code.js because all
accesses are `||`-guarded). -/
def jsOr (a b : String) : String := if a = "" then b else a

/-- `pat` occurs as a prefix of `cs` (character-by-character). -/
def startsWithChars : List Char → List Char → Bool
  | [], _ => true
  | _ :: _, [] => false
  | p :: ps, c :: cs => p == c && startsWithChars ps cs

/-- `pat` occurs as a contiguous run somewhere inside `cs`. -/
def hasSubChars (pat : List Char) : List Char → Bool
  | [] => startsWithChars pat []
  | c :: cs => startsWithChars pat (c :: cs) || hasSubChars pat cs

/-- JS `String.prototype.includes`. -/
def jsIncludes (s pat : String) : Bool := hasSubChars pat.data s.data

/-- A raw table cell as delivered by the external readers: absent
(`undefined`), a string (CSV parse), or a number (spreadsheet `getValues`). -/
inductive Cell where
  | missing : Cell
  | str : String → Cell
  | num : ℚ → Cell
deriving DecidableEq

/-- JS truthiness of a cell value: `undefined`, `""` and `0` are falsy. -/
def Cell.truthy : Cell → Bool
  | .missing => false
  | .str s => s != ""
  | .num q => q != 0

/-- Fractional decimal digits of `0 ≤ x < 1`, fuel-bounded (terminating
decimals only ever need a few digits; the inputs at issue are short). -/
def fracDigitChars : ℕ → ℚ → List Char
  | 0, _ => []
  | n + 1, x =>
    if x = 0 then []
    else Char.ofNat (48 + (⌊x * 10⌋).toNat) :: fracDigitChars n (x * 10 - (⌊x * 10⌋ : ℚ))

/-- Decimal string of a rational, matching JS `Number.prototype.toString`
on terminating decimals (the only numeric cells this pipeline meets). -/
def ratDecimalString (q : ℚ) : String :=
  let n := |q|
  let ip := (⌊n⌋).toNat
  let fds := fracDigitChars 30 (n - (ip : ℚ))
  (if q < 0 then "-" else "") ++ toString ip ++ (if fds.isEmpty then "" else "." ++ String.mk fds)

/-- JS `v.toString()` for a cell value (`Cell.missing` never reaches this
in Code.js because the call is truthiness-guarded). -/
def Cell.render : Cell → String
  | .missing => ""
  | .str s => s
  | .num q => ratDecimalString q

/-- Row normalization of one cell (Code.js line 245):
`obj[h] = row[i] ? row[i].toString().trim() : ''`. -/
def normalizeCell (c : Cell) : String :=
  if c.truthy then jsTrim c.render else ""

/-- A normalized row: header-keyed string record, as an association list.
Later entries shadow earlier ones (JS assignment order for duplicate
headers), hence the fold in `rowGet` keeps the last match. -/
abbrev Row := List (String × String)

/-- Object lookup `r[k]` on a normalized row; absent keys give `""`
(see `jsOr` for why this is faithful). -/
def rowGet (r : Row) (k : String) : String :=
  (r.foldl (fun acc p => if p.1 = k then some p.2 else acc) none).getD ""

/-- Code.js lines 242-248: build the record for one data row; cells beyond
the row's length are `undefined` and normalize to `""`. -/
def normalizeRow (headers : List String) (cells : List Cell) : Row :=
  headers.enum.map (fun p => (p.2, normalizeCell (cells.getD p.1 .missing)))

/-- Code.js line 215: `headers = data[0].map(h => h.toString().trim())`. -/
def headerNames (hrow : List Cell) : List String := hrow.map (fun c => jsTrim c.render)

/-- Membership in the lowercased header set (Code.js line 218). -/
def hasHeader (headers : List String) (k : String) : Bool :=
  (headers.map jsToLower).contains k

/-- Code.js lines 231-236: the `basicOk` header check. Note that only
`description` and `taxamount` are accepted solely in plain form; the other
four concepts accept a `*`-prefixed variant as well. -/
def basicOk (headers : List String) : Bool :=
  (hasHeader headers "*contactname" || hasHeader headers "contactname") &&
  (hasHeader headers "*invoicenumber" || hasHeader headers "invoicenumber") &&
  hasHeader headers "description" &&
  (hasHeader headers "*quantity" || hasHeader headers "quantity") &&
  (hasHeader headers "*unitamount" || hasHeader headers "unitamount") &&
  hasHeader headers "taxamount"

/-- `row['Description'] || ''`. -/
def descOf (r : Row) : String := rowGet r "Description"

/-- `row['*TaxType'] || ''` (Code.js lines 294, 309, 345 — only the
starred spelling is consulted). -/
def taxTypeOf (r : Row) : String := rowGet r "*TaxType"

/-- Code.js line 256: `row['*ContactName'] || row[headers[0]] || 'Unknown Brand'`. -/
def brandOf (headers : List String) (r : Row) : String :=
  jsOr (rowGet r "*ContactName") (jsOr (rowGet r (headers.getD 0 "")) "Unknown Brand")

/-- Code.js line 257: `row['*InvoiceNumber'] || row['InvoiceNumber'] || 'Unknown Invoice'`. -/
def invoiceOf (r : Row) : String :=
  jsOr (rowGet r "*InvoiceNumber") (jsOr (rowGet r "InvoiceNumber") "Unknown Invoice")

/-- Code.js lines 292, 307, 322, 343:
`parseFloat(row['*Quantity'] || row['Quantity'] || '1')`. -/
def rowQuantity (r : Row) : Option ℚ :=
  jsParseFloat (jsOr (rowGet r "*Quantity") (jsOr (rowGet r "Quantity") "1"))

/-- Code.js lines 293, 308, 323, 344:
`parseFloat(row['*UnitAmount'] || row['UnitAmount'] || 0)`; the final
fallback is the number `0`, which `parseFloat` coerces to `"0"`. -/
def rowUnitAmount (r : Row) : Option ℚ :=
  let s := jsOr (rowGet r "*UnitAmount") (rowGet r "UnitAmount")
  if s = "" then some 0 else jsParseFloat s

/-- `taxType.toLowerCase().includes('no vat')` (Code.js lines 297, 312, 350). -/
def noVatRow (r : Row) : Bool := jsIncludes (jsToLower (taxTypeOf r)) "no vat"

/-- Per-row net amount (Code.js lines 296-301 and 347-355): full gross when
"no vat", otherwise gross divided by 1.2, rounded to 2 decimals. -/
def rowNet (r : Row) : Option ℚ :=
  match rowQuantity r, rowUnitAmount r with
  | some q, some u =>
    some (if noVatRow r then roundToNearest (u * q) 2 else roundToNearest (u * q / (6/5)) 2)
  | _, _ => none

/-- Per-row VAT (Code.js lines 311-316): `0` for "no vat" rows (the
initializer, kept even when quantity is `NaN`), otherwise
`round2(gross - round2(gross / 1.2))`. -/
def rowVat (r : Row) : Option ℚ :=
  if noVatRow r then some 0
  else
    match rowQuantity r, rowUnitAmount r with
    | some q, some u =>
      some (roundToNearest (u * q - roundToNearest (u * q / (6/5)) 2) 2)
    | _, _ => none

/-- Per-row rounded gross (Code.js line 324): `roundToNearest(unitPrice * quantity)`. -/
def rowGross (r : Row) : Option ℚ :=
  match rowQuantity r, rowUnitAmount r with
  | some q, some u => some (roundToNearest (u * q) 2)
  | _, _ => none

/-- `NaN`-propagating addition on JS numbers. -/
def optAdd : Option ℚ → Option ℚ → Option ℚ
  | some a, some b => some (a + b)
  | _, _ => none

/-- Code.js lines 291-304: `allItems.reduce((sum, row) => sum + netAmount, 0)`. -/
def brandSubtotal (items : List Row) : Option ℚ :=
  items.foldl (fun s r => optAdd s (rowNet r)) (some 0)

/-- Code.js lines 306-319: the `totalVat` reduce. -/
def brandTotalVat (items : List Row) : Option ℚ :=
  items.foldl (fun s r => optAdd s (rowVat r)) (some 0)

/-- Code.js lines 321-325: the `totalGbp` reduce. -/
def brandTotalGbp (items : List Row) : Option ℚ :=
  items.foldl (fun s r => optAdd s (rowGross r)) (some 0)

/-- The shipping regex `/ship|post|postage|delivery|freight|shipping/i`
(Code.js line 376): case-insensitive unanchored alternation of literals,
i.e. substring containment of any alternative. -/
def shippingTest (s : String) : Bool :=
  jsIncludes (jsToLower s) "ship" || jsIncludes (jsToLower s) "post" ||
  jsIncludes (jsToLower s) "postage" || jsIncludes (jsToLower s) "delivery" ||
  jsIncludes (jsToLower s) "freight" || jsIncludes (jsToLower s) "shipping"

/-- Discount predicate (Code.js lines 378-382): lowercased description
contains "discount", or quantity `< 0` (`NaN < 0` is false). -/
def isDiscountRow (r : Row) : Bool :=
  jsIncludes (jsToLower (descOf r)) "discount" ||
  (match rowQuantity r with
   | some q => decide (q < 0)
   | none => false)

/-- Shipping filter predicate (Code.js line 392): the regex test alone —
it does NOT exclude rows already matched as discounts. -/
def isShippingRow (r : Row) : Bool := shippingTest (descOf r)

/-- Normal filter predicate (Code.js lines 384-390): neither a discount
nor a shipping match. -/
def isNormalRow (r : Row) : Bool := !isDiscountRow r && !isShippingRow r

/-- Emission of one order group (Code.js lines 378-397): the three
independent `filter` passes concatenated as discounts, normal, shipping. -/
def classifyEmit (og : List Row) : List Row :=
  og.filter isDiscountRow ++ og.filter isNormalRow ++ og.filter isShippingRow

/-- Character-level core of the order-id match `/^#(\d+)/`. -/
def extractOrderIdChars : List Char → String
  | [] => "Unknown"
  | c :: rest =>
    if c = '#' then
      if (rest.takeWhile Char.isDigit).isEmpty then "Unknown"
      else String.mk (rest.takeWhile Char.isDigit)
    else "Unknown"

/-- Order-id extraction (Code.js lines 280-282): `desc.match(/^#(\d+)/)`,
producing the digit run after a leading `#`, else `"Unknown"`. -/
def extractOrderId (s : String) : String := extractOrderIdChars s.data

/-- Character-level core of the spec's leading pattern `#<digits>`. -/
def hasLeadingOrderTagChars : List Char → Bool
  | c1 :: c2 :: _ => c1 == '#' && c2.isDigit
  | _ => false

/-- Whether a description starts with the spec's leading pattern
`#<digits>` (spec §3); named from the spec's words, for stating the
"no leading tag" side of order-id extraction. -/
def hasLeadingOrderTag (s : String) : Bool := hasLeadingOrderTagChars s.data

/-- Order id of a row: `item['Description'] || ''` fed to the extraction. -/
def orderIdOf (r : Row) : String := extractOrderId (descOf r)

/-- Insert into a list sorted by the comparator `le`, keeping it sorted. -/
def insertBy (le : String → String → Bool) (a : String) : List String → List String
  | [] => [a]
  | b :: bs => if le a b then a :: b :: bs else b :: insertBy le a bs

/-- Insertion sort by the comparator `le`. -/
def sortListBy (le : String → String → Bool) (l : List String) : List String :=
  l.foldr (insertBy le) []

/-- JS `Array.prototype.sort()` with the default comparator on distinct
ASCII keys: the unique lexicographically sorted permutation (realised here
by insertion sort; any sorting algorithm yields the same list). -/
def jsSortStrings (l : List String) : List String := sortListBy strLeB l

/-- First-appearance order of the distinct values of `l` (JS object string
keys record insertion order). -/
def firstSeen (l : List String) : List String :=
  l.foldl (fun acc k => if k ∈ acc then acc else acc ++ [k]) []

/-- ECMAScript array-index property name: canonical decimal string of an
integer in `[0, 2^32 - 2]` (no leading zero except `"0"` itself). -/
def isArrayIndexKey (s : String) : Bool :=
  !s.data.isEmpty && s.data.all Char.isDigit &&
  (s == "0" || s.data.head? != some '0') &&
  digitsToNat s.data < 4294967295

/-- Ascending numeric sort of array-index keys. -/
def sortNumeric (l : List String) : List String :=
  sortListBy (fun a b => decide (digitsToNat a.data ≤ digitsToNat b.data)) l

/-- ECMAScript own-property key order, as produced by `Object.keys` on an
object whose keys were inserted in the order of `l`: array-index-like keys
first in ascending numeric order, then the remaining keys in insertion
order. -/
def jsObjectKeys (l : List String) : List String :=
  sortNumeric (l.filter isArrayIndexKey) ++ l.filter (fun s => !isArrayIndexKey s)

/-- Code.js lines 278-288 seen through its key list: the rows of one order
group, in input order. -/
def groupItems (items : List Row) (g : String) : List Row :=
  items.filter (fun r => orderIdOf r == g)

/-- Code.js line 372: `Object.keys(itemsByOrderNumber).sort()`. -/
def sortedOrderNumbersOf (items : List Row) : List String :=
  jsSortStrings (jsObjectKeys (firstSeen (items.map orderIdOf)))

/-- Two-decimal rendering of a nonnegative amount scaled by 100:
`n = 1667 ↦ "16.67"`. -/
def natFixed2 (n : ℕ) : String :=
  toString (n / 100) ++ "." ++ (if n % 100 < 10 then "0" else "") ++ toString (n % 100)

/-- JS `x.toFixed(2)` on the reals: sign of `x`, then the magnitude rounded
half-away-from-zero to 2 decimals (ECMAScript picks the larger candidate
`n` for the magnitude). -/
def jsToFixed2 (q : ℚ) : String :=
  (if q < 0 then "-" else "") ++ natFixed2 (⌊|q| * 100 + 1/2⌋).toNat

/-- `x.toFixed(2)` on a possibly-`NaN` JS number (`NaN.toFixed(2) = "NaN"`). -/
def jsToFixed2Opt : Option ℚ → String
  | none => "NaN"
  | some q => jsToFixed2 q

/-- Code.js line 358: `(amount < 0) ? `(abs.toFixed(2))` : amount.toFixed(2)`
(`NaN < 0` is false and `NaN.toFixed(2) = "NaN"`). -/
def formatAmount : Option ℚ → String
  | none => "NaN"
  | some q => if q < 0 then "(" ++ jsToFixed2 |q| ++ ")" else jsToFixed2 q

/-- The five cell strings of one rendered item row (Code.js lines 342-368). -/
structure RenderedRow where
  description : String
  quantityStr : String
  unitPriceStr : String
  vatRateStr : String
  netStr : String
deriving DecidableEq

/-- `renderRow` (Code.js lines 342-368), as the displayed cell contents. -/
def renderRowModel (r : Row) : RenderedRow :=
  { description := descOf r
    quantityStr := jsToFixed2Opt (rowQuantity r)
    unitPriceStr := jsToFixed2Opt (rowUnitAmount r)
    vatRateStr := if noVatRow r then "N/A" else "20%"
    netStr := formatAmount (rowNet r) }

/-- One brand's report: the computed values substituted into the document
(Code.js lines 271-462), with the totals both as numbers and as their
displayed `toFixed(2)` strings. -/
structure BrandReport where
  brand : String
  invoiceNumbers : List String
  orderNumbers : List String
  items : List Row
  rendered : List RenderedRow
  subtotal : Option ℚ
  totalVat : Option ℚ
  totalGbp : Option ℚ
  subtotalStr : String
  totalVatStr : String
  totalGbpStr : String
deriving DecidableEq

/-- The per-brand pipeline body (Code.js lines 271-439): flatten the
brand's invoices in object-key order, group by order number, total over
the flat list, and emit each order group as discounts ++ normal ++
shipping in lexicographic order of order id. -/
def makeBrandReport (b : String) (brandRows : List Row) : BrandReport :=
  let invoiceKeys := jsObjectKeys (firstSeen (brandRows.map invoiceOf))
  let allItems := invoiceKeys.flatMap (fun inv => brandRows.filter (fun r => invoiceOf r == inv))
  let orderNums := sortedOrderNumbersOf allItems
  let emitted := orderNums.flatMap (fun g => classifyEmit (groupItems allItems g))
  { brand := b
    invoiceNumbers := invoiceKeys
    orderNumbers := orderNums
    items := emitted
    rendered := emitted.map renderRowModel
    subtotal := brandSubtotal allItems
    totalVat := brandTotalVat allItems
    totalGbp := brandTotalGbp allItems
    subtotalStr := jsToFixed2Opt (brandSubtotal allItems)
    totalVatStr := jsToFixed2Opt (brandTotalVat allItems)
    totalGbpStr := jsToFixed2Opt (brandTotalGbp allItems) }

/-- The aggregation pipeline (Code.js lines 215-462) from the raw table
(header row + data rows) to the list of brand reports; `none` models the
run aborting at the header check (line 238-241) before any grouping. -/
def generateBrandReports (data : List (List Cell)) : Option (List BrandReport) :=
  match data with
  | [] => none
  | hrow :: drows =>
    let headers := headerNames hrow
    if basicOk headers then
      let rows := drows.map (normalizeRow headers)
      let brandKeys := jsObjectKeys (firstSeen (rows.map (brandOf headers)))
      some (brandKeys.map (fun b => makeBrandReport b (rows.filter (fun r => brandOf headers r == b))))
    else none

/-! Concrete sample tables used by the claim theorems. -/

/-- The standard header row of the input table (spec §6). -/
def sampleHeaderCells : List Cell :=
  [.str "*ContactName", .str "*InvoiceNumber", .str "Description",
   .str "*Quantity", .str "*UnitAmount", .str "*TaxType", .str "TaxAmount"]

/-- One raw data row under `sampleHeaderCells`. -/
def mkRowCells (brand inv desc qty unit tax : String) : List Cell :=
  [.str brand, .str inv, .str desc, .str qty, .str unit, .str tax, .str ""]

/-- The normalized record produced for `mkRowCells` under `sampleHeaderCells`. -/
def mkNormRow (brand inv desc qty unit tax : String) : Row :=
  [("*ContactName", brand), ("*InvoiceNumber", inv), ("Description", desc),
   ("*Quantity", qty), ("*UnitAmount", unit), ("*TaxType", tax), ("TaxAmount", "")]

/-- The two standard-rated data rows of the spec's end-to-end scenario
(§8): brand "Acme", invoice "INV1". -/
def acmeRows : List (List Cell) :=
  [mkRowCells "Acme" "INV1" "#1 Widget" "2" "10" "Standard",
   mkRowCells "Acme" "INV1" "#1 Shipping" "1" "5" "Standard"]

/-- The spec's end-to-end scenario table: header row plus `acmeRows`. -/
def acmeData : List (List Cell) := sampleHeaderCells :: acmeRows

/-- The brand report the claims predict for `acmeData`. -/
def acmeExpected : BrandReport :=
  { brand := "Acme"
    invoiceNumbers := ["INV1"]
    orderNumbers := ["1"]
    items := [mkNormRow "Acme" "INV1" "#1 Widget" "2" "10" "Standard",
              mkNormRow "Acme" "INV1" "#1 Shipping" "1" "5" "Standard"]
    rendered :=
      [{ description := "#1 Widget", quantityStr := "2.00", unitPriceStr := "10.00",
         vatRateStr := "20%", netStr := "16.67" },
       { description := "#1 Shipping", quantityStr := "1.00", unitPriceStr := "5.00",
         vatRateStr := "20%", netStr := "4.17" }]
    subtotal := some (521/25)
    totalVat := some (104/25)
    totalGbp := some 25
    subtotalStr := "20.84"
    totalVatStr := "4.16"
    totalGbpStr := "25.00" }

/-- One standard-rated row with a negative unit amount (gross `-10`). -/
def negAmountData : List (List Cell) :=
  [sampleHeaderCells, mkRowCells "NegCo" "I1" "Widget" "1" "-10" "Standard"]

/-- Two brands whose names are array-index-like strings, appearing in the
input in the order `"10"`, `"2"`. -/
def numericBrandData : List (List Cell) :=
  [sampleHeaderCells,
   mkRowCells "10" "I1" "A" "1" "1" "Standard",
   mkRowCells "2" "I2" "B" "1" "1" "Standard"]

/-- A row that is simultaneously a discount (quantity `-1 < 0`) and a
shipping match (description contains "Shipping"). -/
def shipDiscountRow : Row := [("Description", "#1 Shipping"), ("*Quantity", "-1")]

/-- A row whose quantity and unit-amount cells hold non-numeric text. -/
def nonNumericRow : Row := [("*Quantity", "abc"), ("*UnitAmount", "xyz")]

/-- A standard-rated row with quantity 2 and unit amount 10. -/
def stdSampleRow : Row := mkNormRow "Acme" "INV1" "#1 Widget" "2" "10" "Standard"

/-- Every required header concept in its `*`-prefixed spelling. -/
def starredHeadersEx : List String :=
  ["*ContactName", "*InvoiceNumber", "*Description", "*Quantity", "*UnitAmount", "*TaxAmount"]

/-- Every required header concept in its plain spelling. -/
def plainHeadersEx : List String :=
  ["ContactName", "InvoiceNumber", "Description", "Quantity", "UnitAmount", "TaxAmount"]

/-- The spellings the code actually requires: starred where accepted,
plain `Description` and `TaxAmount`. -/
def mixedHeadersEx : List String :=
  ["*ContactName", "*InvoiceNumber", "Description", "*Quantity", "*UnitAmount", "TaxAmount"]

/-- `mixedHeadersEx` in upper case (case-insensitivity check). -/
def upperHeadersEx : List String :=
  ["*CONTACTNAME", "*INVOICENUMBER", "DESCRIPTION", "*QUANTITY", "*UNITAMOUNT", "TAXAMOUNT"]

/-! Helper lemmas. -/

/-- `charListLt` is asymmetric. -/
theorem charListLt_asymm : ∀ as bs : List Char,
    charListLt as bs = true → charListLt bs as = false := by
  intro as
  induction as with
  | nil =>
    intro bs h
    cases bs with
    | nil => simp [charListLt] at h
    | cons b bs => simp [charListLt]
  | cons a as ih =>
    intro bs h
    cases bs with
    | nil => simp [charListLt] at h
    | cons b bs =>
      simp only [charListLt] at h ⊢
      by_cases h1 : a.toNat < b.toNat
      · rw [if_neg (by omega), if_pos h1]
      · by_cases h2 : b.toNat < a.toNat
        · rw [if_neg h1, if_pos h2] at h
          exact absurd h (by simp)
        · rw [if_neg h1, if_neg h2] at h
          rw [if_neg h2, if_neg h1]
          exact ih bs h

/-- Lists incomparable under `charListLt` are equal. -/
theorem charListLt_eq_of_incomp : ∀ as bs : List Char,
    charListLt as bs = false → charListLt bs as = false → as = bs := by
  intro as
  induction as with
  | nil =>
    intro bs h _
    cases bs with
    | nil => rfl
    | cons b bs => simp [charListLt] at h
  | cons a as ih =>
    intro bs h h'
    cases bs with
    | nil => simp [charListLt] at h'
    | cons b bs =>
      simp only [charListLt] at h h'
      by_cases h1 : a.toNat < b.toNat
      · rw [if_pos h1] at h; exact absurd h (by simp)
      · by_cases h2 : b.toNat < a.toNat
        · rw [if_pos h2] at h'; exact absurd h' (by simp)
        · rw [if_neg h1, if_neg h2] at h
          rw [if_neg h2, if_neg h1] at h'
          have hc : a = b := by
            have hv : a.toNat = b.toNat := by omega
            exact Char.eq_of_val_eq (UInt32.eq_of_toBitVec_eq (BitVec.eq_of_toNat_eq hv))
          rw [hc, ih bs h h']

/-- `charListLt` is transitive. -/
theorem charListLt_trans : ∀ as bs cs : List Char,
    charListLt as bs = true → charListLt bs cs = true → charListLt as cs = true := by
  intro as
  induction as with
  | nil =>
    intro bs cs h h'
    cases bs with
    | nil => simp [charListLt] at h
    | cons b bs =>
      cases cs with
      | nil => simp [charListLt] at h'
      | cons c cs => simp [charListLt]
  | cons a as ih =>
    intro bs cs h h'
    cases bs with
    | nil => simp [charListLt] at h
    | cons b bs =>
      cases cs with
      | nil => simp [charListLt] at h'
      | cons c cs =>
        simp only [charListLt] at h h' ⊢
        by_cases hab : a.toNat < b.toNat
        · by_cases hbc : b.toNat < c.toNat
          · rw [if_pos (show a.toNat < c.toNat by omega)]
          · by_cases hcb : c.toNat < b.toNat
            · rw [if_neg hbc, if_pos hcb] at h'
              exact absurd h' (by simp)
            · rw [if_pos (show a.toNat < c.toNat by omega)]
        · by_cases hba : b.toNat < a.toNat
          · rw [if_neg hab, if_pos hba] at h; exact absurd h (by simp)
          · rw [if_neg hab, if_neg hba] at h
            by_cases hbc : b.toNat < c.toNat
            · rw [if_pos (by omega)]
            · by_cases hcb : c.toNat < b.toNat
              · rw [if_neg hbc, if_pos hcb] at h'; exact absurd h' (by simp)
              · rw [if_neg hbc, if_neg hcb] at h'
                rw [if_neg (by omega), if_neg (by omega)]
                exact ih bs cs h h'

/-- Totality of the lexicographic `≤`. -/
theorem strLeB_total (a b : String) : strLeB a b = true ∨ strLeB b a = true := by
  by_cases h : charListLt b.data a.data = true
  · right
    simp only [strLeB, strLtB]
    rw [charListLt_asymm _ _ h]
    rfl
  · left
    simp only [strLeB, strLtB]
    simp only [Bool.not_eq_true] at h
    rw [h]
    rfl

/-- If `strLeB a b` fails then `strLeB b a` holds. -/
theorem strLeB_of_not (a b : String) (h : strLeB a b = false) : strLeB b a = true := by
  rcases strLeB_total a b with h' | h'
  · rw [h'] at h; cases h
  · exact h'

/-- Transitivity of the lexicographic `≤`. -/
theorem strLeB_trans (a b c : String) (hab : strLeB a b = true) (hbc : strLeB b c = true) :
    strLeB a c = true := by
  simp only [strLeB, strLtB, Bool.not_eq_true'] at hab hbc ⊢
  by_cases hca : charListLt c.data a.data = true
  · by_cases hcb : charListLt c.data b.data = true
    · rw [hcb] at hbc; cases hbc
    · by_cases hbc' : charListLt b.data c.data = true
      · have := charListLt_trans _ _ _ hbc' hca
        rw [this] at hab; cases hab
      · simp only [Bool.not_eq_true] at hcb hbc'
        have : b.data = c.data := charListLt_eq_of_incomp _ _ hbc' hcb
        rw [← this] at hca
        rw [hca] at hab; cases hab
  · simp only [Bool.not_eq_true] at hca
    exact hca

/-- Membership in `insertBy`. -/
theorem mem_insertBy (le : String → String → Bool) (a x : String) :
    ∀ l : List String, x ∈ insertBy le a l ↔ x = a ∨ x ∈ l := by
  intro l
  induction l with
  | nil => simp [insertBy]
  | cons b bs ih =>
    simp only [insertBy]
    by_cases h : le a b
    · rw [if_pos h]; simp
    · rw [if_neg h]; simp [ih]; tauto

/-- Membership in `sortListBy`. -/
theorem mem_sortListBy (le : String → String → Bool) (x : String) :
    ∀ l : List String, x ∈ sortListBy le l ↔ x ∈ l := by
  intro l
  induction l with
  | nil => simp [sortListBy]
  | cons b bs ih =>
    simp only [sortListBy, List.foldr_cons] at ih ⊢
    rw [mem_insertBy]
    simp [ih]

/-- `insertBy` preserves sortedness for a total transitive comparator. -/
theorem pairwise_insertBy (le : String → String → Bool)
    (htot : ∀ a b, le a b = false → le b a = true)
    (htrans : ∀ a b c, le a b = true → le b c = true → le a c = true)
    (a : String) :
    ∀ l : List String, l.Pairwise (fun x y => le x y = true) →
      (insertBy le a l).Pairwise (fun x y => le x y = true) := by
  intro l
  induction l with
  | nil => intro _; simp [insertBy]
  | cons b bs ih =>
    intro h
    rw [List.pairwise_cons] at h
    obtain ⟨hb, hbs⟩ := h
    simp only [insertBy]
    by_cases hab : le a b
    · rw [if_pos hab]
      rw [List.pairwise_cons]
      constructor
      · intro x hx
        rcases List.mem_cons.mp hx with hx | hx
        · rw [hx]; exact hab
        · exact htrans a b x hab (hb x hx)
      · rw [List.pairwise_cons]; exact ⟨hb, hbs⟩
    · rw [if_neg hab]
      rw [List.pairwise_cons]
      constructor
      · intro x hx
        rcases (mem_insertBy le a x bs).mp hx with hx | hx
        · rw [hx]
          exact htot a b (Bool.not_eq_true _ ▸ (by simpa using hab))
        · exact hb x hx
      · exact ih hbs

/-- `sortListBy` with a total transitive comparator sorts. -/
theorem pairwise_sortListBy (le : String → String → Bool)
    (htot : ∀ a b, le a b = false → le b a = true)
    (htrans : ∀ a b c, le a b = true → le b c = true → le a c = true) :
    ∀ l : List String, (sortListBy le l).Pairwise (fun x y => le x y = true) := by
  intro l
  induction l with
  | nil => simp [sortListBy]
  | cons b bs ih =>
    simp only [sortListBy, List.foldr_cons] at ih ⊢
    exact pairwise_insertBy le htot htrans b _ ih

/-- Membership in `firstSeen`: exactly the values of the input list. -/
theorem mem_firstSeen_aux (x : String) :
    ∀ (l : List String) (acc : List String),
      (x ∈ l.foldl (fun acc k => if k ∈ acc then acc else acc ++ [k]) acc ↔ x ∈ acc ∨ x ∈ l) := by
  intro l
  induction l with
  | nil => intro acc; simp
  | cons k t ih =>
    intro acc
    simp only [List.foldl_cons]
    by_cases hk : k ∈ acc
    · rw [if_pos hk]
      rw [ih acc]
      simp only [List.mem_cons]
      constructor
      · rintro (h | h)
        · exact Or.inl h
        · exact Or.inr (Or.inr h)
      · rintro (h | h | h)
        · exact Or.inl h
        · exact Or.inl (h ▸ hk)
        · exact Or.inr h
    · rw [if_neg hk]
      rw [ih (acc ++ [k])]
      simp only [List.mem_append, List.mem_singleton, List.mem_cons]
      tauto

/-- `firstSeen` has the same members as its input. -/
theorem mem_firstSeen (x : String) (l : List String) : x ∈ firstSeen l ↔ x ∈ l := by
  unfold firstSeen
  rw [mem_firstSeen_aux]
  simp

/-- `jsObjectKeys` has the same members as its input. -/
theorem mem_jsObjectKeys (x : String) (l : List String) : x ∈ jsObjectKeys l ↔ x ∈ l := by
  unfold jsObjectKeys sortNumeric
  rw [List.mem_append, mem_sortListBy]
  by_cases hx : isArrayIndexKey x
  · simp [List.mem_filter, hx]
  · simp [List.mem_filter, hx]

/-- On key lists with no array-index-like entry, `jsObjectKeys` is the
identity (JS objects keep pure string keys in insertion order). -/
theorem jsObjectKeys_of_no_index (l : List String)
    (h : ∀ b ∈ l, isArrayIndexKey b = false) : jsObjectKeys l = l := by
  unfold jsObjectKeys sortNumeric
  have h1 : l.filter isArrayIndexKey = [] := by
    rw [List.filter_eq_nil_iff]
    intro a ha
    simp [h a ha]
  have h2 : l.filter (fun s => !isArrayIndexKey s) = l := by
    rw [List.filter_eq_self]
    intro a ha
    simp [h a ha]
  rw [h1, h2]
  rfl

/-- Counting in a filtered list. -/
theorem count_filter_ite (p : Row → Bool) (a : Row) :
    ∀ l : List Row, (l.filter p).count a = if p a then l.count a else 0 := by
  intro l
  induction l with
  | nil => simp
  | cons b t ih =>
    by_cases hb : p b
    · rw [List.filter_cons_of_pos hb, List.count_cons, List.count_cons, ih]
      by_cases hpa : p a
      · rw [if_pos hpa, if_pos hpa]
      · rw [if_neg hpa, if_neg hpa]
        have hba : (b == a) = false := by
          apply beq_eq_false_iff_ne.mpr
          intro h
          rw [h] at hb
          exact hpa hb
        rw [hba]
        simp
    · rw [List.filter_cons_of_neg hb, ih]
      by_cases hpa : p a
      · rw [if_pos hpa, if_pos hpa, List.count_cons]
        have hba : (b == a) = false := by
          apply beq_eq_false_iff_ne.mpr
          intro h
          rw [h] at hb
          exact hb hpa
        rw [hba]
        simp
      · rw [if_neg hpa, if_neg hpa]

/-- A `reduce`-style fold of `NaN`-propagating additions equals the sum of
the per-row values when every row yields a value. -/
theorem foldl_optAdd_mapM (f : Row → Option ℚ) :
    ∀ (items : List Row) (ns : List ℚ) (a : ℚ),
      items.mapM f = some ns →
      items.foldl (fun s r => optAdd s (f r)) (some a) = some (a + ns.sum) := by
  intro items
  induction items with
  | nil =>
    intro ns a h
    simp only [List.mapM_nil, pure, Option.some.injEq] at h
    subst h
    simp
  | cons r t ih =>
    intro ns a h
    rw [List.mapM_cons] at h
    cases hf : f r with
    | none => rw [hf] at h; simp at h
    | some x =>
      rw [hf] at h
      cases ht : t.mapM f with
      | none => rw [ht] at h; simp at h
      | some xs =>
        rw [ht] at h
        have h' : x :: xs = ns := by
          simpa [pure, Option.bind_eq_bind] using h
        subst h'
        have hstep : optAdd (some a) (f r) = some (a + x) := by rw [hf]; rfl
        rw [List.foldl_cons, hstep, ih xs (a + x) ht]
        simp only [List.sum_cons, Option.some.injEq]
        ring

/-! Claim theorems. -/

/-- Claim C1, counterexample: `roundToNearest` does not round half away
from zero on negative ties. At `v = -0.125` — a value ending in `-x.xx5`
whose binary64 representation (`-2⁻³`) and scaled product (`-12.5`) are
both exact, so the source's IEEE evaluation coincides with exact rational
arithmetic here — `Math.round(-12.5)` resolves the tie toward `+∞` and
the code returns `-0.12`, while round-half-away-from-zero requires
`-0.13`. -/
theorem c1_round_counterexample :
    roundToNearest (-(1/8)) 2 = -(12/100) ∧
    (roundHalfAwayFromZero ((-(1/8) : ℚ) * 100) : ℚ) / 100 = -(13/100) ∧
    ((-(12/100) : ℚ) ≠ -(13/100)) := by
  refine ⟨by decide, by decide, by decide⟩

/-- Claim C1, amended: `round2` scales by 100 (an IEEE-double multiply in
the source), applies JS `Math.round` — nearest integer, an exact `.5` tie
resolved toward `+∞` — and divides by 100. On binary64-exact half-cent
ties this departs from round-half-away-from-zero for negative values
(`round2(-0.125) = -0.12`, not `-0.13`) while positive exact ties still
round away from zero (`round2(0.125) = 0.13`, agreeing with the spec's
rule), and `round2(10.005) = 10.01` holds as claimed. Ties whose scaled
double product is inexact are decided by the product's IEEE rounding
(the code yields `1.00` at `1.005` and `-10.01` at `-10.005`) and lie
outside this exact-rational model, so only binary64-exact instances are
asserted here. -/
theorem c1_round_half_up_amended :
    roundToNearest (2001/200) 2 = 1001/100 ∧
    roundToNearest (1/8) 2 = 13/100 ∧
    (roundHalfAwayFromZero ((1/8 : ℚ) * 100) : ℚ) / 100 = 13/100 ∧
    roundToNearest (-(1/8)) 2 = -(12/100) := by
  refine ⟨by decide, by decide, by decide, by decide⟩

/-- Claim C3: on the two-row "Acme" table the pipeline produces exactly one
brand report, with one order group `"1"`, items rendered as
[Normal (Widget), Shipping], subtotal `20.84`, VAT `4.16`, total `25.00`. -/
theorem c3_end_to_end : generateBrandReports acmeData = some [acmeExpected] := by
  decide

/-- Claim C4, counterexample: a row that is both a discount (quantity
`-1 < 0`) and a shipping match (description "#1 Shipping") is emitted
twice by the classifier, so the three categories are not disjoint and not
every item is emitted exactly once. -/
theorem c4_classifier_counterexample :
    classifyEmit [shipDiscountRow] = [shipDiscountRow, shipDiscountRow] ∧
    (classifyEmit [shipDiscountRow]).count shipDiscountRow = 2 := by
  refine ⟨by decide, by decide⟩

/-- Claim C4, amended: the shipping filter is evaluated on all items,
including those already classified Discount, so an item that is both a
discount and a shipping match is emitted twice; every other item is
emitted exactly once, in the fixed order discounts ++ normal ++ shipping
with each filter pass preserving the original relative order (sublists of
the group). -/
theorem c4_classifier_amended :
    (∀ (og : List Row) (r : Row),
      (classifyEmit og).count r =
        (if isDiscountRow r && isShippingRow r then 2 else 1) * og.count r) ∧
    (∀ og : List Row,
      (og.filter isDiscountRow).Sublist og ∧
      (og.filter isNormalRow).Sublist og ∧
      (og.filter isShippingRow).Sublist og) := by
  constructor
  · intro og r
    unfold classifyEmit
    rw [List.count_append, List.count_append,
      count_filter_ite, count_filter_ite, count_filter_ite]
    rcases hD : isDiscountRow r
    all_goals rcases hS : isShippingRow r
    all_goals simp [isNormalRow, hD, hS]
    all_goals omega
  · intro og
    exact ⟨List.filter_sublist og, List.filter_sublist og, List.filter_sublist og⟩

/-- Claim C7, counterexample: a non-empty, non-numeric quantity or
unit-amount cell parses to `NaN` (modelled `none`), not to the claimed
defaults `1` and `0`. -/
theorem c7_defaults_counterexample :
    rowQuantity nonNumericRow = none ∧
    rowUnitAmount nonNumericRow = none ∧
    (rowQuantity nonNumericRow ≠ some 1) ∧
    (rowUnitAmount nonNumericRow ≠ some 0) := by
  refine ⟨by decide, by decide, by decide, by decide⟩

/-- Claim C7, amended: quantity defaults to `1` and unit amount to `0`
only when the cell is absent or empty (falsy); a non-empty non-numeric
cell yields `NaN` (`none`), which then propagates into the computed
amounts instead of a default. -/
theorem c7_defaults_amended :
    (∀ r : Row, rowGet r "*Quantity" = "" → rowGet r "Quantity" = "" →
      rowQuantity r = some 1) ∧
    (∀ r : Row, rowGet r "*UnitAmount" = "" → rowGet r "UnitAmount" = "" →
      rowUnitAmount r = some 0) ∧
    rowQuantity nonNumericRow = none ∧
    rowUnitAmount nonNumericRow = none := by
  refine ⟨?_, ?_, by decide, by decide⟩
  · intro r h1 h2
    unfold rowQuantity
    rw [show jsOr (rowGet r "*Quantity") (jsOr (rowGet r "Quantity") "1") = "1" by
      simp [jsOr, h1, h2]]
    decide
  · intro r h1 h2
    simp [rowUnitAmount, jsOr, h1, h2]

/-- Witness for C7 on the empty record: both defaults fire. -/
theorem c7_defaults_amended_witness :
    rowQuantity ([] : Row) = some 1 ∧ rowUnitAmount ([] : Row) = some 0 :=
  ⟨c7_defaults_amended.1 [] (by decide) (by decide),
   c7_defaults_amended.2.1 [] (by decide) (by decide)⟩

/-- Claim C10: row normalization maps every falsy cell — absent cell,
empty string, numeric `0` — to `""`; consequently a quantity cell holding
`0` falls through to the default `1` and a unit-amount cell holding `0`
falls through to the default `0`. -/
theorem c10_falsy_cells :
    (∀ c : Cell, c.truthy = false → normalizeCell c = "") ∧
    normalizeCell Cell.missing = "" ∧
    normalizeCell (Cell.str "") = "" ∧
    normalizeCell (Cell.num 0) = "" ∧
    rowQuantity (normalizeRow ["*Quantity", "*UnitAmount"] [Cell.num 0, Cell.num 0]) = some 1 ∧
    rowUnitAmount (normalizeRow ["*Quantity", "*UnitAmount"] [Cell.num 0, Cell.num 0]) = some 0 := by
  refine ⟨?_, by decide, by decide, by decide, by decide, by decide⟩
  intro c h
  simp [normalizeCell, h]

/-- Witness for C10 at the absent cell. -/
theorem c10_falsy_cells_witness :
    Cell.truthy Cell.missing = false ∧ normalizeCell Cell.missing = "" :=
  ⟨by decide, c10_falsy_cells.1 Cell.missing (by decide)⟩

/-- Claim C2: per row, a "no vat" tax type gives net `round2(q·u)` and
VAT `0`; otherwise net is `round2(gross/1.2)` and VAT is
`round2(gross − net)`; the brand subtotal and VAT total are the sums of
the per-row values. -/
theorem c2_vat_aggregator :
    (∀ (r : Row) (q u : ℚ), rowQuantity r = some q → rowUnitAmount r = some u →
      ((noVatRow r = true →
          rowNet r = some (roundToNearest (q * u) 2) ∧ rowVat r = some 0) ∧
       (noVatRow r = false →
          rowNet r = some (roundToNearest (q * u / (6/5)) 2) ∧
          rowVat r = some (roundToNearest (q * u - roundToNearest (q * u / (6/5)) 2) 2)))) ∧
    (∀ (items : List Row) (ns : List ℚ),
      items.mapM rowNet = some ns → brandSubtotal items = some ns.sum) ∧
    (∀ (items : List Row) (vs : List ℚ),
      items.mapM rowVat = some vs → brandTotalVat items = some vs.sum) := by
  refine ⟨?_, ?_, ?_⟩
  · intro r q u hq hu
    constructor
    · intro hv
      constructor
      · simp [rowNet, hq, hu, hv, mul_comm]
      · simp [rowVat, hv]
    · intro hv
      constructor
      · simp [rowNet, hq, hu, hv, mul_comm]
      · simp [rowVat, hq, hu, hv, mul_comm]
  · intro items ns h
    unfold brandSubtotal
    rw [foldl_optAdd_mapM rowNet items ns 0 h]
    simp
  · intro items vs h
    unfold brandTotalVat
    rw [foldl_optAdd_mapM rowVat items vs 0 h]
    simp

/-- Witness for C2 on the standard-rated sample row (q = 2, u = 10):
net 16.67, subtotal 16.67, VAT total 3.33. -/
theorem c2_vat_aggregator_witness :
    rowNet stdSampleRow = some (roundToNearest ((2 : ℚ) * 10 / (6/5)) 2) ∧
    brandSubtotal [stdSampleRow] = some ([(1667 : ℚ)/100].sum) ∧
    brandTotalVat [stdSampleRow] = some ([(333 : ℚ)/100].sum) :=
  ⟨((c2_vat_aggregator.1 stdSampleRow 2 10 (by decide) (by decide)).2 (by decide)).1,
   c2_vat_aggregator.2.1 [stdSampleRow] [1667/100] (by decide),
   c2_vat_aggregator.2.2 [stdSampleRow] [333/100] (by decide)⟩

/-- Claim C6, counterexample: the header check does not accept the starred
spelling for every required concept — with `*Description` and `*TaxAmount`
(all other concepts starred as well) validation fails and the run aborts,
while the all-plain spelling passes. -/
theorem c6_headers_counterexample :
    basicOk starredHeadersEx = false ∧
    generateBrandReports (starredHeadersEx.map Cell.str :: []) = none ∧
    basicOk plainHeadersEx = true := by
  refine ⟨by decide, by decide, by decide⟩

/-- Claim C6, amended: contact name, invoice number, quantity and unit
amount are recognized plain or `*`-prefixed, case-insensitively, but
description and tax amount are recognized only in plain form; whenever the
check fails the pipeline returns before any grouping of rows into brands. -/
theorem c6_headers_amended :
    basicOk mixedHeadersEx = true ∧
    basicOk upperHeadersEx = true ∧
    basicOk plainHeadersEx = true ∧
    basicOk starredHeadersEx = false ∧
    (∀ (hrow : List Cell) (drows : List (List Cell)),
      basicOk (headerNames hrow) = false →
      generateBrandReports (hrow :: drows) = none) := by
  refine ⟨by decide, by decide, by decide, by decide, ?_⟩
  intro hrow drows h
  simp [generateBrandReports, h]

/-- Witness for C6: the all-starred header row aborts the pipeline. -/
theorem c6_headers_amended_witness :
    basicOk (headerNames (starredHeadersEx.map Cell.str)) = false ∧
    generateBrandReports (starredHeadersEx.map Cell.str :: [mkRowCells "B" "I" "D" "1" "1" "S"]) = none :=
  ⟨by decide,
   c6_headers_amended.2.2.2.2 (starredHeadersEx.map Cell.str)
     [mkRowCells "B" "I" "D" "1" "1" "S"] (by decide)⟩

/-- Claim C8, counterexample: the displayed brand subtotal, VAT total and
gross total are rendered with `toFixed(2)` alone, so a negative subtotal
is shown as `-8.33` (minus sign), not with parenthesis notation. -/
theorem c8_totals_counterexample :
    (generateBrandReports negAmountData).map (fun l => l.map (fun rep => rep.subtotal)) =
      some [some (-(833 : ℚ)/100)] ∧
    ((-(833 : ℚ)/100) < 0) ∧
    (generateBrandReports negAmountData).map
        (fun l => l.map (fun rep => (rep.subtotalStr, rep.totalVatStr, rep.totalGbpStr))) =
      some [("-8.33", "-1.67", "-10.00")] := by
  refine ⟨by decide, by decide, by decide⟩

/-- Claim C8, amended: parenthesis notation applies to the per-row net
amounts (every negative net renders as `(abs.toFixed(2))`, as on the
sample negative row), while the displayed subtotal, VAT total and gross
total keep the `toFixed` minus sign. -/
theorem c8_parentheses_amended :
    (∀ q : ℚ, q < 0 →
      formatAmount (some q) = "(" ++ natFixed2 (⌊-q * 100 + 1/2⌋).toNat ++ ")") ∧
    (generateBrandReports negAmountData).map
        (fun l => l.map (fun rep => rep.rendered.map (fun rr => rr.netStr))) =
      some [["(8.33)"]] ∧
    (generateBrandReports negAmountData).map (fun l => l.map (fun rep => rep.subtotalStr)) =
      some ["-8.33"] := by
  refine ⟨?_, by decide, by decide⟩
  intro q h
  show (if q < 0 then "(" ++ jsToFixed2 |q| ++ ")" else jsToFixed2 q) = _
  rw [if_pos h]
  unfold jsToFixed2
  rw [if_neg (not_lt.mpr (abs_nonneg q)), abs_of_neg h, abs_of_pos (neg_pos.mpr h)]
  rfl

/-- Witness for C8 at `q = -1`. -/
theorem c8_parentheses_amended_witness :
    ((-1 : ℚ) < 0) ∧
    formatAmount (some (-1)) = "(" ++ natFixed2 (⌊-(-1 : ℚ) * 100 + 1/2⌋).toNat ++ ")" :=
  ⟨by norm_num, c8_parentheses_amended.1 (-1) (by norm_num)⟩

/-- Projecting the brand field back out of the per-brand reports returns
the brand key list. -/
theorem map_brand_makeBrandReport (K : List String) (R : String → List Row) :
    List.map (fun rep => rep.brand) (List.map (fun b => makeBrandReport b (R b)) K) = K := by
  rw [List.map_map]
  exact List.map_id'' (fun b => rfl) _

/-- Claim C9, counterexample: with brand names `"10"` then `"2"` (both
array-index-like strings), the reports come out in ascending numeric key
order `["2", "10"]`, not in first-appearance order `["10", "2"]`. -/
theorem c9_brand_order_counterexample :
    ((numericBrandData.drop 1).map
        (fun cells => brandOf (headerNames sampleHeaderCells)
          (normalizeRow (headerNames sampleHeaderCells) cells))) = ["10", "2"] ∧
    (generateBrandReports numericBrandData).map (fun l => l.map (fun rep => rep.brand)) =
      some ["2", "10"] ∧
    (["2", "10"] ≠ ["10", "2"]) := by
  refine ⟨by decide, by decide, by decide⟩

/-- Claim C9, amended: brands are emitted in ECMAScript object key order —
array-index-like brand names first in ascending numeric order, then the
remaining names in first-appearance order; when no brand name is
array-index-like this coincides with first-appearance order. -/
theorem c9_brand_order_amended :
    (∀ l : List String, (∀ b ∈ l, isArrayIndexKey b = false) → jsObjectKeys l = l) ∧
    (∀ (hrow : List Cell) (drows : List (List Cell)),
      basicOk (headerNames hrow) = true →
      (∀ b ∈ firstSeen ((drows.map (normalizeRow (headerNames hrow))).map
          (brandOf (headerNames hrow))), isArrayIndexKey b = false) →
      (generateBrandReports (hrow :: drows)).map (fun l => l.map (fun rep => rep.brand)) =
        some (firstSeen ((drows.map (normalizeRow (headerNames hrow))).map
          (brandOf (headerNames hrow))))) := by
  constructor
  · intro l h
    exact jsObjectKeys_of_no_index l h
  · intro hrow drows hOk hIdx
    have hred : generateBrandReports (hrow :: drows) =
        (if basicOk (headerNames hrow) then
          some ((jsObjectKeys (firstSeen ((drows.map (normalizeRow (headerNames hrow))).map
              (brandOf (headerNames hrow))))).map
            (fun b => makeBrandReport b
              ((drows.map (normalizeRow (headerNames hrow))).filter
                (fun r => brandOf (headerNames hrow) r == b))))
        else none) := rfl
    rw [hred, if_pos hOk]
    exact congrArg some
      (Eq.trans (map_brand_makeBrandReport _ _) (jsObjectKeys_of_no_index _ hIdx))

/-- Witness for C9 on the "Acme" table (no array-index-like brand). -/
theorem c9_brand_order_amended_witness :
    (generateBrandReports (sampleHeaderCells :: acmeRows)).map
        (fun l => l.map (fun rep => rep.brand)) =
      some (firstSeen ((acmeRows.map (normalizeRow (headerNames sampleHeaderCells))).map
        (brandOf (headerNames sampleHeaderCells)))) :=
  c9_brand_order_amended.2 sampleHeaderCells acmeRows (by decide) (by decide)

/-- A decimal digit character sorts before `'U'`. -/
theorem digit_toNat_lt_U (c : Char) (h : c.isDigit = true) : c.toNat < 85 := by
  simp only [Char.isDigit, Bool.and_eq_true, decide_eq_true_eq] at h
  obtain ⟨h1, h2⟩ := h
  have h3 : c.val.toBitVec.toNat ≤ 57 := by
    have := UInt32.le_def.mp h2
    simpa [BitVec.le_def] using this
  have h4 : c.toNat = c.val.toBitVec.toNat := rfl
  omega

/-- Claim C5: the order id is the digit run of a leading `#<digits>` in the
description (`"#123 Widget" → "123"`); descriptions with no such leading
pattern all map to `"Unknown"`; each row lands in the group keyed by its
order id; the rendered group keys are lexicographically sorted and are
exactly the order ids occurring among the items; lexicographically
`"10" < "2"`, and every nonempty all-digit key sorts before `"Unknown"`. -/
theorem c5_order_grouping :
    extractOrderId "#123 Widget" = "123" ∧
    extractOrderId "Widget" = "Unknown" ∧
    (∀ s : String, hasLeadingOrderTag s = false → extractOrderId s = "Unknown") ∧
    (∀ items : List Row,
      (sortedOrderNumbersOf items).Pairwise (fun x y => strLeB x y = true)) ∧
    (∀ (items : List Row) (g : String),
      g ∈ sortedOrderNumbersOf items ↔ g ∈ items.map orderIdOf) ∧
    (∀ (items : List Row) (r : Row), r ∈ items → r ∈ groupItems items (orderIdOf r)) ∧
    strLtB "10" "2" = true ∧
    (∀ s : String, s.data ≠ [] → (∀ c ∈ s.data, c.isDigit) → strLtB s "Unknown" = true) := by
  refine ⟨by decide, by decide, ?_, ?_, ?_, ?_, by decide, ?_⟩
  · intro s h
    unfold extractOrderId
    unfold hasLeadingOrderTag at h
    cases hd : s.data with
    | nil => rfl
    | cons c rest =>
      rw [hd] at h
      by_cases hc : c = '#'
      · subst hc
        cases rest with
        | nil => rfl
        | cons c2 rest2 =>
          simp only [hasLeadingOrderTagChars, beq_self_eq_true, Bool.true_and] at h
          simp only [extractOrderIdChars, if_pos rfl]
          rw [List.takeWhile_cons, if_neg (show ¬(c2.isDigit = true) by simp [h])]
          rfl
      · simp only [extractOrderIdChars]
        rw [if_neg hc]
  · intro items
    unfold sortedOrderNumbersOf jsSortStrings
    exact pairwise_sortListBy strLeB strLeB_of_not strLeB_trans _
  · intro items g
    unfold sortedOrderNumbersOf jsSortStrings
    rw [mem_sortListBy, mem_jsObjectKeys, mem_firstSeen]
  · intro items r h
    unfold groupItems
    rw [List.mem_filter]
    exact ⟨h, by simp⟩
  · intro s hne hd
    unfold strLtB
    cases hcs : s.data with
    | nil => exact absurd hcs hne
    | cons c t =>
      have hU : ("Unknown" : String).data = 'U' :: "nknown".data := rfl
      rw [hU]
      simp only [charListLt]
      rw [if_pos]
      have hdc : c.isDigit = true := hd c (hcs ▸ List.mem_cons_self c t)
      have := digit_toNat_lt_U c hdc
      have hUval : ('U' : Char).toNat = 85 := rfl
      omega

/-- Witness for C5: taglesss description, group membership, and the
digit-key-before-"Unknown" ordering at concrete inputs. -/
theorem c5_order_grouping_witness :
    hasLeadingOrderTag "Widget" = false ∧
    extractOrderId "Widget" = "Unknown" ∧
    (stdSampleRow ∈ groupItems [stdSampleRow] (orderIdOf stdSampleRow)) ∧
    strLtB "9" "Unknown" = true :=
  ⟨by decide,
   c5_order_grouping.2.2.1 "Widget" (by decide),
   c5_order_grouping.2.2.2.2.2.1 [stdSampleRow] stdSampleRow (by decide),
   c5_order_grouping.2.2.2.2.2.2.2 "9" (by decide) (by decide)⟩
